import Mathlib

/-!
Shallow embedding of `src/predict.py`: a single-run pipeline that loads a
detection model, downloads a fixed batch of five images over HTTP into a
directory, runs object detection over the image files of a directory, and
persists the detections into a SQLite table `object_detections`.

External effects are modelled by explicit oracles: the HTTP client is a
function from URL to bytes-or-error, image decoding and model inference are
functions from filename to result-or-error, the directory listing is a list
of filenames, and SQLite statement failures are boolean oracles.  SQLite
transaction semantics of the Python `with connection:` block are modelled by
a pending journal on the connection that is committed when the block exits
normally and rolled back when it exits with an error.  Each stage also
returns the list of observable events it performed, used to state ordering
properties of the driver `main`.
-/

namespace Predict

/-- Scalar values (Python floats: box coordinates and confidences) carried
verbatim through the pipeline; no arithmetic is ever performed on them. -/
abbrev Val := Rat

/-- Observable events of a run. -/
inductive Event where
  | loadModel
  | httpGet (i : Nat)
  | writeImage (i : Nat)
  | inferImage (name : String)
  | createTable
  | insertRow
  | connClose
deriving DecidableEq

/-- Events of the model-loading stage. -/
def Event.isModelEvent : Event → Bool
  | .loadModel => true
  | _ => false

/-- Events of the image-fetching stage. -/
def Event.isFetchEvent : Event → Bool
  | .httpGet _ => true
  | .writeImage _ => true
  | _ => false

/-- Events of the detection stage. -/
def Event.isDetectEvent : Event → Bool
  | .inferImage _ => true
  | _ => false

/-- Database-write events (table creation and row insertion). -/
def Event.isDbEvent : Event → Bool
  | .createTable => true
  | .insertRow => true
  | _ => false

/-- The connection-close event. -/
def Event.isCloseEvent : Event → Bool
  | .connClose => true
  | _ => false

/-- The local filesystem: the set of existing directories and a partial map
from file path to file contents (raw bytes). -/
structure FS where
  dirs : List String
  files : String → Option (List Nat)

/-- Python `os.makedirs(download_dir, exist_ok=True)`: create the directory
if absent, do nothing if it already exists. -/
def FS.mkdirs (fs : FS) (d : String) : FS :=
  if d ∈ fs.dirs then fs else { fs with dirs := d :: fs.dirs }

/-- Python `open(path, "wb").write(data)`: create or overwrite the file. -/
def FS.writeFile (fs : FS) (p : String) (data : List Nat) : FS :=
  { fs with files := fun q => if q = p then some data else fs.files q }

/-- Python `f"{channel_url}/image_{i}.jpg"`. -/
def imageURL (channel_url : String) (i : Nat) : String :=
  channel_url ++ "/image_" ++ toString i ++ ".jpg"

/-- Python `os.path.join(download_dir, f"image_{i}.jpg")`. -/
def imagePath (download_dir : String) (i : Nat) : String :=
  download_dir ++ "/image_" ++ toString i ++ ".jpg"

/-- The `for i in range(5)` loop of `download_images_from_telegram`: GET the
per-index URL and write the raw response body verbatim to the per-index
path; an error raised by a GET aborts the loop and propagates. -/
def downloadLoop (get : String → Except String (List Nat))
    (channel_url download_dir : String) :
    List Nat → FS → List Event × Option String × FS
  | [], fs => ([], none, fs)
  | i :: rest, fs =>
    match get (imageURL channel_url i) with
    | .error e => ([.httpGet i], some e, fs)
    | .ok data =>
      let r := downloadLoop get channel_url download_dir rest
        (fs.writeFile (imagePath download_dir i) data)
      (.httpGet i :: .writeImage i :: r.1, r.2)

/-- Python `download_images_from_telegram(channel_url, download_dir)`:
create the directory if absent, then fetch images 0..4; the surrounding
`except` clause only logs and re-raises, so an error propagates unchanged. -/
def download_images_from_telegram (get : String → Except String (List Nat))
    (channel_url : String) (fs : FS) (download_dir : String := "images") :
    List Event × Option String × FS :=
  downloadLoop get channel_url download_dir (List.range 5) (fs.mkdirs download_dir)

/-- The three parallel arrays extracted from one YOLO inference result:
`results.xywh[0].tolist()`, the label array, and the confidence array. -/
structure Results where
  boxes : List (List Val)
  labels : List String
  confidences : List Val
deriving DecidableEq

/-- One per-image detection group as appended to `detections` in
`detect_objects_in_images`. -/
structure Detection where
  image : String
  boxes : List (List Val)
  labels : List String
  confidences : List Val
deriving DecidableEq

/-- Character-level suffix test: the last characters of `s` are exactly the
characters of `t`. -/
def strEndsWith (s t : String) : Bool :=
  decide (s.data.drop (s.data.length - t.data.length) = t.data)

/-- Python `Path(image_dir).glob("*.jpg")`: the files of the directory whose
names match `*.jpg` (enumeration order is the listing order). -/
def globJpg (files : List String) : List String :=
  files.filter (fun f => strEndsWith f ".jpg")

/-- Processing of one image inside the loop: `cv2.imread` (whose failure
surfaces as an exception when the unusable value reaches the model) followed
by model inference. -/
def processImage (decode : String → Except String Unit)
    (infer : String → Except String Results) (f : String) :
    Except String Results :=
  match decode f with
  | .error e => .error e
  | .ok _ => infer f

/-- The dictionary appended to `detections` for one image. -/
def mkDetection (name : String) (r : Results) : Detection :=
  { image := name, boxes := r.boxes, labels := r.labels,
    confidences := r.confidences }

/-- The `for image_path in ...` loop of `detect_objects_in_images`: any
error aborts the whole loop; the groups collected so far are discarded
because the function re-raises instead of returning. -/
def detectLoop (decode : String → Except String Unit)
    (infer : String → Except String Results) :
    List String → List Event × Except String (List Detection)
  | [] => ([], .ok [])
  | f :: fs =>
    match processImage decode infer f with
    | .error e => ([.inferImage f], .error e)
    | .ok r =>
      let rest := detectLoop decode infer fs
      (.inferImage f :: rest.1, rest.2.map (fun ds => mkDetection f r :: ds))

/-- Python `detect_objects_in_images(model, image_dir)` over a directory
whose listing is `files`. -/
def detect_objects_in_images (decode : String → Except String Unit)
    (infer : String → Except String Results) (files : List String) :
    List Event × Except String (List Detection) :=
  detectLoop decode infer (globJpg files)

/-- One row of the `object_detections` table (the seven non-key columns of
the positional INSERT). -/
structure Row where
  image_name : String
  label : String
  confidence : Val
  x_center : Val
  y_center : Val
  width : Val
  height : Val
deriving DecidableEq

/-- A SQLite connection: the schema (table names), the committed rows of
`object_detections`, and the pending journal of the open transaction. -/
structure Conn where
  tables : List String
  committed : List Row
  pending : List Row
deriving DecidableEq

/-- A successful `connection.execute(insert_query, ...)`: the row joins the
open transaction's journal. -/
def Conn.execInsert (c : Conn) (r : Row) : Conn :=
  { c with pending := c.pending ++ [r] }

/-- Normal exit of a `with connection:` block: the journal is committed. -/
def Conn.commit (c : Conn) : Conn :=
  { c with committed := c.committed ++ c.pending, pending := [] }

/-- Error exit of a `with connection:` block: the journal is discarded. -/
def Conn.rollback (c : Conn) : Conn :=
  { c with pending := [] }

/-- Python `zip` over three lists: truncates to the shortest. -/
def zip3 {α β γ : Type} : List α → List β → List γ → List (α × β × γ)
  | a :: as, b :: bs, c :: cs => (a, b, c) :: zip3 as bs cs
  | _, _, _ => []

/-- Python `zip(detection["boxes"], detection["labels"], detection["confidences"])`. -/
def detectionTriples (d : Detection) : List (List Val × String × Val) :=
  zip3 d.boxes d.labels d.confidences

/-- The full iteration space of the two nested loops of
`store_detection_results`: every (box, label, confidence) triple of every
group, tagged with its group's image name, in loop order. -/
def allTriples (ds : List Detection) : List (String × List Val × String × Val) :=
  ds.flatMap (fun d => (detectionTriples d).map (fun t => (d.image, t)))

/-- Python `x_center, y_center, width, height = box[:4]` followed by the
seven-value tuple handed to `connection.execute`; `none` models the
ValueError raised when the box has fewer than four components. -/
def mkRow (image_name : String) (box : List Val) (label : String)
    (confidence : Val) : Option Row :=
  match box with
  | x :: y :: w :: h :: _ =>
    some { image_name := image_name, label := label, confidence := confidence,
           x_center := x, y_center := y, width := w, height := h }
  | _ => none

/-- Name of the detection table. -/
def tableName : String := "object_detections"

/-- The body of the `with connection:` block of `store_detection_results`:
execute one INSERT per triple.  An INSERT fails if the table does not exist
or if the statement-failure oracle `failAt` marks this insert; a malformed
box fails before the statement is executed.  The first error aborts the
loop. -/
def insertLoop (failAt : Nat → Bool) :
    Nat → Conn → List (String × List Val × String × Val) →
    List Event × Option String × Conn
  | _, c, [] => ([], none, c)
  | n, c, (img, box, lbl, conf) :: rest =>
    match mkRow img box lbl conf with
    | none => ([], some "ValueError: not enough values to unpack", c)
    | some r =>
      if tableName ∈ c.tables then
        if failAt n then ([.insertRow], some "insert failed", c)
        else
          let res := insertLoop failAt (n + 1) (c.execInsert r) rest
          (.insertRow :: res.1, res.2)
      else ([.insertRow], some "no such table", c)

/-- Python `store_detection_results(connection, detections)`: all inserts
run inside one `with connection:` block, committed on normal exit and
rolled back on error; the `except` clause only logs and re-raises. -/
def store_detection_results (failAt : Nat → Bool) (c : Conn)
    (detections : List Detection) : List Event × Option String × Conn :=
  let res := insertLoop failAt 0 c (allTriples detections)
  match res.2.1 with
  | none => (res.1, none, res.2.2.commit)
  | some e => (res.1, some e, res.2.2.rollback)

/-- SQL `CREATE TABLE IF NOT EXISTS`: add the table to the schema only when
it is absent. -/
def createTableIfNotExists (tables : List String) (name : String) :
    List String :=
  if name ∈ tables then tables else tables ++ [name]

/-- Python `create_database_table(connection)`: execute the CREATE TABLE IF
NOT EXISTS statement; `fail` is the oracle for a statement error (for
example insufficient permissions or a corrupt database file), which is
logged and re-raised. -/
def create_database_table (fail : Bool) (c : Conn) :
    List Event × Option String × Conn :=
  if fail then ([.createTable], some "error creating table", c)
  else ([.createTable], none,
    { c with tables := createTableIfNotExists c.tables tableName })

/-- Python `setup_yolo_model(model_path)`: the oracle `ok` says whether
`YOLOv5(model_path)` succeeds; on failure the error is logged and
re-raised. -/
def setup_yolo_model (ok : Bool) : Except String Unit :=
  if ok then .ok () else .error "error loading model"

/-- The external world of one run: all oracles the pipeline consults. -/
structure World where
  modelOk : Bool
  get : String → Except String (List Nat)
  imageFiles : List String
  decode : String → Except String Unit
  infer : String → Except String Results
  createFail : Bool
  insertFail : Nat → Bool

/-- The observable outcome of one run of `main`. -/
structure RunResult where
  trace : List Event
  err : Option String
  conn : Conn
  fs : FS
  closed : Bool

/-- The hard-coded channel URL of `main`. -/
def channelURL : String := "https://t.me/lobelia4cosmetics"

/-- Python `main()`: connect, load model, download images, detect, create
table, store results, close.  `db` is the persistent state behind
`sqlite3.connect("detections.db")` (a fresh connection has an empty
journal); `connection.close()` is the last statement of the function and an
unhandled error propagates past it. -/
def main (w : World) (db : Conn) (fs0 : FS) : RunResult :=
  let c0 : Conn := { db with pending := [] }
  match setup_yolo_model w.modelOk with
  | .error e =>
    { trace := [.loadModel], err := some e, conn := c0, fs := fs0,
      closed := false }
  | .ok _ =>
    let rF := download_images_from_telegram w.get channelURL fs0
    match rF.2.1 with
    | some e =>
      { trace := .loadModel :: rF.1, err := some e, conn := c0, fs := rF.2.2,
        closed := false }
    | none =>
      let rD := detect_objects_in_images w.decode w.infer w.imageFiles
      match rD.2 with
      | .error e =>
        { trace := .loadModel :: (rF.1 ++ rD.1), err := some e, conn := c0,
          fs := rF.2.2, closed := false }
      | .ok detections =>
        let rC := create_database_table w.createFail c0
        match rC.2.1 with
        | some e =>
          { trace := .loadModel :: (rF.1 ++ rD.1 ++ rC.1), err := some e,
            conn := rC.2.2, fs := rF.2.2, closed := false }
        | none =>
          let rS := store_detection_results w.insertFail rC.2.2 detections
          match rS.2.1 with
          | some e =>
            { trace := .loadModel :: (rF.1 ++ rD.1 ++ rC.1 ++ rS.1),
              err := some e, conn := rS.2.2, fs := rF.2.2, closed := false }
          | none =>
            { trace := .loadModel :: (rF.1 ++ rD.1 ++ rC.1 ++ rS.1 ++ [.connClose]),
              err := none, conn := rS.2.2, fs := rF.2.2, closed := true }

/-- The row implied by one tagged triple of the iteration space. -/
def tripleRow (q : String × List Val × String × Val) : Option Row :=
  mkRow q.1 q.2.1 q.2.2.1 q.2.2.2

/-- Specification-side list of rows implied by a list of detection groups:
one row per zipped triple, built from the group's data. -/
def rowsOf (ds : List Detection) : List Row :=
  (allTriples ds).filterMap tripleRow

/-- Total number of boxes across all groups. -/
def totalBoxes (ds : List Detection) : Nat :=
  (ds.map (fun d => d.boxes.length)).sum

/-- Minimum of the three parallel array lengths of one group. -/
def minLen (d : Detection) : Nat :=
  min d.boxes.length (min d.labels.length d.confidences.length)

/-- Sum of `minLen` across all groups. -/
def totalMin (ds : List Detection) : Nat :=
  (ds.map minLen).sum

/-- The connection state after a successful `create_database_table` call on
a fresh connection to `db`. -/
def connAfterCreate (db : Conn) : Conn :=
  { db with
    pending := []
    tables := createTableIfNotExists db.tables tableName }

/-! ### Concrete inputs used by the witness theorems -/

/-- Concrete run of C1 with a failing insert: the hypotheses hold and the
conclusion is obtained by applying the transaction theorem. -/
def c1Conn : Conn :=
  { tables := ["object_detections"],
    committed :=
      [{ image_name := "old.jpg", label := "dog", confidence := 1,
         x_center := 2, y_center := 3, width := 4, height := 5 }],
    pending := [] }

/-- Concrete detection groups used by the C1 witness. -/
def c1Dets : List Detection :=
  [{ image := "image_0.jpg", boxes := [[10, 20, 30, 40]], labels := ["cat"],
     confidences := [1] }]

/-- Concrete connection used by the C2 witness. -/
def c2Conn : Conn :=
  { tables := ["object_detections"],
    committed :=
      [{ image_name := "old.jpg", label := "dog", confidence := 1,
         x_center := 2, y_center := 3, width := 4, height := 5 }],
    pending := [] }

/-- Concrete well-formed detection groups used by the C2 witness. -/
def c2Dets : List Detection :=
  [{ image := "image_0.jpg",
     boxes := [[10, 20, 30, 40], [50, 60, 70, 80]],
     labels := ["cat", "dog"], confidences := [1, 2] },
   { image := "image_1.jpg", boxes := [[1, 2, 3, 4]], labels := ["bird"],
     confidences := [3] }]

/-- Concrete connection used by the C10 witness. -/
def c10Conn : Conn :=
  { tables := ["object_detections"], committed := [], pending := [] }

/-- Concrete detection group with unequal array lengths used by the C10
witness: three boxes, two labels, one confidence, so only one row is
implied. -/
def c10Dets : List Detection :=
  [{ image := "image_0.jpg",
     boxes := [[10, 20, 30, 40], [50, 60, 70, 80], [1, 2, 3, 4]],
     labels := ["cat", "dog"], confidences := [1] }]

/-- Concrete decode oracle for the C3 witness: everything decodes. -/
def c3Decode : String → Except String Unit := fun _ => .ok ()

/-- Concrete inference oracle for the C3 witness. -/
def c3Infer : String → Except String Results := fun _ =>
  .ok { boxes := [[1, 2, 3, 4]], labels := ["cat"], confidences := [1] }

/-- Concrete directory listing for the C3 witness: two matching files and
one non-matching file. -/
def c3Files : List String := ["image_0.jpg", "notes.txt", "image_1.jpg"]

/-- Concrete inference oracle for the C9 witness. -/
def c9Infer : String → Except String Results := fun _ =>
  .ok { boxes := [[5, 6, 7, 8]], labels := ["dog"], confidences := [1] }

/-- Concrete decode oracle for the C9 witness: one corrupt file. -/
def c9Decode : String → Except String Unit := fun f =>
  if f = "image_1.jpg" then .error "cannot decode image" else .ok ()

/-- Concrete directory listing for the C9 witness. -/
def c9Files : List String := ["image_0.jpg", "image_1.jpg", "image_2.jpg"]

/-- Concrete HTTP oracle for the C5 witness: every GET succeeds with the
same body. -/
def c5Get : String → Except String (List Nat) := fun _ => .ok [7, 8, 9]

/-- Concrete empty filesystem for the C5 witness. -/
def c5FS : FS := { dirs := [], files := fun _ => none }

/-- Concrete connection with no tables for the C6 witness. -/
def c6Conn : Conn := { tables := [], committed := [], pending := [] }

/-- C4 (counterexample): a run whose model loading fails ends with an error
and with the connection still open — `main` has an exit path that does not
close the connection, contradicting the claim that every exit path closes
it. -/
def c4World : World :=
  { modelOk := false, get := fun _ => .ok [], imageFiles := [],
    decode := fun _ => .ok (),
    infer := fun _ => .ok { boxes := [], labels := [], confidences := [] },
    createFail := false, insertFail := fun _ => false }

/-- Concrete database state for the C4 counterexample. -/
def c4Db : Conn := { tables := [], committed := [], pending := [] }

/-- Concrete filesystem for the C4 counterexample. -/
def c4FS : FS := { dirs := [], files := fun _ => none }

/-- Concrete world for the C7 witness: the GET for index 2 (the third of
five requests) fails with a network error. -/
def c7World : World :=
  { modelOk := true,
    get := fun u =>
      if u = imageURL channelURL 2 then .error "network down" else .ok [1],
    imageFiles := ["image_0.jpg"],
    decode := fun _ => .ok (),
    infer := fun _ => .ok { boxes := [], labels := [], confidences := [] },
    createFail := false, insertFail := fun _ => false }

/-- Concrete database state for the C7 witness. -/
def c7Db : Conn := { tables := [], committed := [], pending := [] }

/-- Concrete filesystem for the C7 witness. -/
def c7FS : FS := { dirs := [], files := fun _ => none }

/-! ### Lemmas about the insert loop and the zipped iteration space -/

theorem insertLoop_committed (failAt : Nat → Bool) :
    ∀ (l : List (String × List Val × String × Val)) (n : Nat) (c : Conn),
      (insertLoop failAt n c l).2.2.committed = c.committed := by
  intro l
  induction l with
  | nil => intro n c; rfl
  | cons q rest ih =>
    intro n c
    obtain ⟨img, box, lbl, conf⟩ := q
    simp only [insertLoop]
    cases hm : mkRow img box lbl conf with
    | none => rfl
    | some r =>
      by_cases ht : tableName ∈ c.tables
      · simp only [ht, if_true]
        cases hf : failAt n
        · simpa using ih (n + 1) (c.execInsert r)
        · rfl
      · simp only [ht, if_false]

theorem insertLoop_tables (failAt : Nat → Bool) :
    ∀ (l : List (String × List Val × String × Val)) (n : Nat) (c : Conn),
      (insertLoop failAt n c l).2.2.tables = c.tables := by
  intro l
  induction l with
  | nil => intro n c; rfl
  | cons q rest ih =>
    intro n c
    obtain ⟨img, box, lbl, conf⟩ := q
    simp only [insertLoop]
    cases hm : mkRow img box lbl conf with
    | none => rfl
    | some r =>
      by_cases ht : tableName ∈ c.tables
      · simp only [ht, if_true]
        cases hf : failAt n
        · simpa using ih (n + 1) (c.execInsert r)
        · rfl
      · simp only [ht, if_false]

theorem insertLoop_trace (failAt : Nat → Bool) :
    ∀ (l : List (String × List Val × String × Val)) (n : Nat) (c : Conn),
      (∀ e ∈ (insertLoop failAt n c l).1, e = Event.insertRow) ∧
      (insertLoop failAt n c l).1.length ≤ l.length := by
  intro l
  induction l with
  | nil =>
    intro n c
    refine ⟨?_, ?_⟩
    · intro e he; cases he
    · simp [insertLoop]
  | cons q rest ih =>
    intro n c
    obtain ⟨img, box, lbl, conf⟩ := q
    simp only [insertLoop]
    cases hm : mkRow img box lbl conf with
    | none =>
      refine ⟨?_, ?_⟩
      · intro e he; cases he
      · simp
    | some r =>
      by_cases ht : tableName ∈ c.tables
      · simp only [ht, if_true]
        cases hf : failAt n
        · simp only [Bool.false_eq_true, if_false]
          obtain ⟨ih1, ih2⟩ := ih (n + 1) (c.execInsert r)
          constructor
          · intro e he
            simp only [List.mem_cons] at he
            rcases he with he | he
            · exact he
            · exact ih1 e he
          · simpa using Nat.succ_le_succ ih2
        · simp only [if_true]
          constructor
          · intro e he
            simp only [List.mem_singleton] at he
            exact he
          · simp
      · simp only [ht, if_false]
        constructor
        · intro e he
          simp only [List.mem_singleton] at he
          exact he
        · simp

/-- When the loop finishes without error, every triple produced a row and
the whole list of rows was journalled, in order. -/
theorem insertLoop_ok (failAt : Nat → Bool) :
    ∀ (l : List (String × List Val × String × Val)) (n : Nat) (c : Conn),
      (insertLoop failAt n c l).2.1 = none →
      (insertLoop failAt n c l).2.2.pending =
        c.pending ++ l.filterMap tripleRow ∧
      (l.filterMap tripleRow).length = l.length := by
  intro l
  induction l with
  | nil => intro n c _; simp [insertLoop]
  | cons q rest ih =>
    intro n c h
    obtain ⟨img, box, lbl, conf⟩ := q
    simp only [insertLoop] at h ⊢
    cases hm : mkRow img box lbl conf with
    | none => simp [hm] at h
    | some r =>
      simp only [hm] at h ⊢
      by_cases ht : tableName ∈ c.tables
      · simp only [ht, if_true] at h ⊢
        cases hf : failAt n
        · simp only [hf, Bool.false_eq_true, if_false] at h ⊢
          obtain ⟨ih1, ih2⟩ := ih (n + 1) (c.execInsert r) h
          have hcons : List.filterMap tripleRow ((img, box, lbl, conf) :: rest)
              = r :: rest.filterMap tripleRow := by
            simp [List.filterMap_cons, tripleRow, hm]
          refine ⟨?_, ?_⟩
          · rw [hcons, ih1]
            simp [Conn.execInsert]
          · rw [hcons]
            simp [ih2]
        · simp [hf] at h
      · simp [ht] at h

/-- When no statement failure is scheduled, the table exists and every
triple's box is well formed, the loop succeeds and journals one row per
triple. -/
theorem insertLoop_no_fail (failAt : Nat → Bool)
    (hfail : ∀ m, failAt m = false) :
    ∀ (l : List (String × List Val × String × Val)) (n : Nat) (c : Conn),
      tableName ∈ c.tables →
      (∀ q ∈ l, (tripleRow q).isSome = true) →
      insertLoop failAt n c l =
        (List.replicate l.length Event.insertRow, none,
          { c with pending := c.pending ++ l.filterMap tripleRow }) := by
  intro l
  induction l with
  | nil => intro n c _ _; simp [insertLoop]
  | cons q rest ih =>
    intro n c ht hwf
    obtain ⟨img, box, lbl, conf⟩ := q
    have hq : (tripleRow (img, box, lbl, conf)).isSome = true :=
      hwf _ (List.mem_cons_self _ _)
    simp only [insertLoop]
    cases hm : mkRow img box lbl conf with
    | none => simp [tripleRow, hm] at hq
    | some r =>
      simp only [ht, if_true, hfail n, Bool.false_eq_true, if_false]
      have ht' : tableName ∈ (c.execInsert r).tables := ht
      have hwf' : ∀ q ∈ rest, (tripleRow q).isSome = true := by
        intro q hq'
        exact hwf q (List.mem_cons_of_mem _ hq')
      rw [ih (n + 1) (c.execInsert r) ht' hwf']
      simp [Conn.execInsert, tripleRow, hm, List.filterMap_cons,
        List.replicate_succ, List.append_assoc]

theorem zip3_length {α β γ : Type} :
    ∀ (as : List α) (bs : List β) (cs : List γ),
      (zip3 as bs cs).length = min as.length (min bs.length cs.length) := by
  intro as
  induction as with
  | nil => intro bs cs; simp [zip3]
  | cons a as ih =>
    intro bs cs
    cases bs with
    | nil => simp [zip3]
    | cons b bs =>
      cases cs with
      | nil => simp [zip3]
      | cons c cs =>
        simp [zip3, ih bs cs, Nat.succ_min_succ]

theorem mem_zip3_fst {α β γ : Type} :
    ∀ {as : List α} {bs : List β} {cs : List γ} {t : α × β × γ},
      t ∈ zip3 as bs cs → t.1 ∈ as := by
  intro as
  induction as with
  | nil => intro bs cs t h; simp [zip3] at h
  | cons a as ih =>
    intro bs cs t h
    cases bs with
    | nil => simp [zip3] at h
    | cons b bs =>
      cases cs with
      | nil => simp [zip3] at h
      | cons c cs =>
        simp only [zip3, List.mem_cons] at h
        rcases h with h | h
        · subst h; exact List.mem_cons_self _ _
        · exact List.mem_cons_of_mem _ (ih h)

/-- Zipping three lists only consults the first `min` elements of each. -/
theorem zip3_take {α β γ : Type} :
    ∀ (as : List α) (bs : List β) (cs : List γ),
      zip3 as bs cs =
        zip3 (as.take (min as.length (min bs.length cs.length)))
          (bs.take (min as.length (min bs.length cs.length)))
          (cs.take (min as.length (min bs.length cs.length))) := by
  intro as
  induction as with
  | nil => intro bs cs; simp [zip3]
  | cons a as ih =>
    intro bs cs
    cases bs with
    | nil => cases cs <;> simp [zip3]
    | cons b bs =>
      cases cs with
      | nil => simp [zip3]
      | cons c cs =>
        simp only [List.length_cons, Nat.succ_min_succ, List.take_succ_cons,
          zip3]
        rw [← ih bs cs]

theorem allTriples_length :
    ∀ ds : List Detection, (allTriples ds).length = totalMin ds := by
  intro ds
  induction ds with
  | nil => rfl
  | cons d ds ih =>
    simp only [allTriples, List.flatMap_cons, List.length_append,
      List.length_map] at *
    simp only [totalMin, List.map_cons, List.sum_cons]
    rw [ih]
    simp [detectionTriples, zip3_length, minLen, totalMin]

theorem mem_allTriples {q : String × List Val × String × Val}
    {ds : List Detection} (h : q ∈ allTriples ds) :
    ∃ d ∈ ds, q.1 = d.image ∧ q.2 ∈ detectionTriples d := by
  simp only [allTriples, List.mem_flatMap, List.mem_map] at h
  obtain ⟨d, hd, t, ht, rfl⟩ := h
  exact ⟨d, hd, rfl, ht⟩

theorem filterMap_length_of_isSome {α β : Type} (f : α → Option β) :
    ∀ l : List α, (∀ q ∈ l, (f q).isSome = true) →
      (l.filterMap f).length = l.length := by
  intro l
  induction l with
  | nil => intro _; rfl
  | cons a l ih =>
    intro h
    have ha : (f a).isSome = true := h a (List.mem_cons_self _ _)
    cases hf : f a with
    | none => simp [hf] at ha
    | some b =>
      rw [List.filterMap_cons_some hf]
      simp only [List.length_cons]
      rw [ih (fun q hq => h q (List.mem_cons_of_mem _ hq))]

theorem mkRow_isSome_of_len {img lbl : String} {conf : Val} {box : List Val}
    (h : 4 ≤ box.length) : (mkRow img box lbl conf).isSome = true := by
  match box, h with
  | x :: y :: w :: z :: rest, _ => simp [mkRow]

/-- Well-formedness of every zipped box gives a row for every triple. -/
theorem allTriples_isSome {ds : List Detection}
    (hbox : ∀ d ∈ ds, ∀ b ∈ d.boxes.take (minLen d), 4 ≤ b.length) :
    ∀ q ∈ allTriples ds, (tripleRow q).isSome = true := by
  intro q hq
  obtain ⟨d, hd, _, ht⟩ := mem_allTriples hq
  have ht' : q.2 ∈ zip3 (d.boxes.take (minLen d)) (d.labels.take (minLen d))
      (d.confidences.take (minLen d)) := by
    rw [detectionTriples, zip3_take] at ht
    exact ht
  have hb : q.2.1 ∈ d.boxes.take (minLen d) := mem_zip3_fst ht'
  exact mkRow_isSome_of_len (hbox d hd _ hb)

/-- When no statement failure is scheduled, the table exists and every
zipped box is well formed, `store_detection_results` commits exactly the
implied rows. -/
theorem store_no_fail (c : Conn) (ds : List Detection)
    (hpend : c.pending = []) (htab : tableName ∈ c.tables)
    (hwf : ∀ q ∈ allTriples ds, (tripleRow q).isSome = true) :
    store_detection_results (fun _ => false) c ds =
      (List.replicate (allTriples ds).length Event.insertRow, none,
        { c with committed := c.committed ++ rowsOf ds, pending := [] }) := by
  have h := insertLoop_no_fail (fun _ => false) (fun _ => rfl)
    (allTriples ds) 0 c htab hwf
  simp only [store_detection_results, h, hpend, List.nil_append]
  simp [Conn.commit, rowsOf]

/-! ### Lemmas about the download loop -/

theorem string_append_cancel {s : String} {t u : String}
    (h : s ++ t = s ++ u) : t = u := by
  have h2 := congrArg String.data h
  rw [String.data_append, String.data_append] at h2
  exact congrArg String.mk ((List.append_right_inj s.data).mp h2)

/-- Distinct indexes below 5 give distinct image paths, whatever the
directory. -/
theorem imagePath_ne (dir : String) (i j : Nat) (hi : i < 5) (hj : j < 5)
    (hne : i ≠ j) : imagePath dir i ≠ imagePath dir j := by
  intro h
  simp only [imagePath] at h
  have h2 : dir ++ ("/image_" ++ toString i ++ ".jpg") =
      dir ++ ("/image_" ++ toString j ++ ".jpg") := by
    rw [← String.append_assoc, ← String.append_assoc,
      ← String.append_assoc, ← String.append_assoc]
    exact h
  have h3 := string_append_cancel h2
  interval_cases i <;> interval_cases j <;>
    first
    | exact hne rfl
    | exact absurd h3 (by decide)

theorem downloadLoop_fetch_events (get : String → Except String (List Nat))
    (channel_url download_dir : String) :
    ∀ (is : List Nat) (fs : FS),
      ∀ e ∈ (downloadLoop get channel_url download_dir is fs).1,
        e.isFetchEvent = true := by
  intro is
  induction is with
  | nil => intro fs e he; cases he
  | cons i rest ih =>
    intro fs e he
    simp only [downloadLoop] at he
    cases hg : get (imageURL channel_url i) with
    | error er =>
      simp only [hg] at he
      simp only [List.mem_singleton] at he
      subst he; rfl
    | ok data =>
      simp only [hg, List.mem_cons] at he
      rcases he with he | he | he
      · subst he; rfl
      · subst he; rfl
      · exact ih _ e he

theorem downloadLoop_count_httpGet (get : String → Except String (List Nat))
    (channel_url download_dir : String) (j : Nat) :
    ∀ (is : List Nat) (fs : FS),
      (downloadLoop get channel_url download_dir is fs).1.countP
          (fun e => decide (e = Event.httpGet j)) ≤
        is.countP (fun i => decide (i = j)) := by
  intro is
  induction is with
  | nil => intro fs; simp [downloadLoop]
  | cons i rest ih =>
    intro fs
    have hrhs : (i :: rest).countP (fun k => decide (k = j)) =
        rest.countP (fun k => decide (k = j)) + (if i = j then 1 else 0) := by
      rw [List.countP_cons]
      by_cases hij : i = j <;> simp [hij]
    simp only [downloadLoop]
    cases hg : get (imageURL channel_url i) with
    | error er =>
      have hlhs : ([Event.httpGet i] : List Event).countP
          (fun e => decide (e = Event.httpGet j)) =
          (if i = j then 1 else 0) := by
        by_cases hij : i = j <;>
          simp [List.countP_cons, List.countP_nil, hij]
      rw [hlhs, hrhs]
      omega
    | ok data =>
      have h := ih (fs.writeFile (imagePath download_dir i) data)
      have hlhs : (Event.httpGet i :: Event.writeImage i ::
          (downloadLoop get channel_url download_dir rest
            (fs.writeFile (imagePath download_dir i) data)).1).countP
          (fun e => decide (e = Event.httpGet j)) =
          (downloadLoop get channel_url download_dir rest
            (fs.writeFile (imagePath download_dir i) data)).1.countP
            (fun e => decide (e = Event.httpGet j)) +
          (if i = j then 1 else 0) := by
        rw [List.countP_cons, List.countP_cons]
        by_cases hij : i = j <;> simp [hij]
      rw [hlhs, hrhs]
      omega

/-- Success characterization of the download loop: no error, directories
untouched, each fetched index holds its response body verbatim, all other
paths unchanged. -/
theorem downloadLoop_ok (get : String → Except String (List Nat))
    (channel_url download_dir : String) :
    ∀ (is : List Nat) (fs : FS), is.Nodup → (∀ i ∈ is, i < 5) →
      (∀ i ∈ is, (get (imageURL channel_url i)).isOk = true) →
      (downloadLoop get channel_url download_dir is fs).2.1 = none ∧
      (downloadLoop get channel_url download_dir is fs).2.2.dirs = fs.dirs ∧
      (∀ i ∈ is,
        (downloadLoop get channel_url download_dir is fs).2.2.files
            (imagePath download_dir i) =
          (get (imageURL channel_url i)).toOption) ∧
      (∀ p, (∀ i ∈ is, p ≠ imagePath download_dir i) →
        (downloadLoop get channel_url download_dir is fs).2.2.files p =
          fs.files p) := by
  intro is
  induction is with
  | nil =>
    intro fs _ _ _
    refine ⟨rfl, rfl, ?_, ?_⟩
    · intro i hi; cases hi
    · intro p _; rfl
  | cons i rest ih =>
    intro fs hnd hlt hok
    have hi5 : i < 5 := hlt i (List.mem_cons_self _ _)
    have hgi : (get (imageURL channel_url i)).isOk = true :=
      hok i (List.mem_cons_self _ _)
    cases hg : get (imageURL channel_url i) with
    | error er => rw [hg] at hgi; cases hgi
    | ok data =>
      have hnd' : rest.Nodup := (List.nodup_cons.mp hnd).2
      have hmem : i ∉ rest := (List.nodup_cons.mp hnd).1
      have hlt' : ∀ k ∈ rest, k < 5 := fun k hk =>
        hlt k (List.mem_cons_of_mem _ hk)
      have hok' : ∀ k ∈ rest, (get (imageURL channel_url k)).isOk = true :=
        fun k hk => hok k (List.mem_cons_of_mem _ hk)
      obtain ⟨ih1, ih2, ih3, ih4⟩ :=
        ih (fs.writeFile (imagePath download_dir i) data) hnd' hlt' hok'
      simp only [downloadLoop, hg]
      refine ⟨ih1, ih2, ?_, ?_⟩
      · intro k hk
        rcases List.mem_cons.mp hk with hk | hk
        · subst hk
          have hframe : ∀ m ∈ rest, imagePath download_dir k ≠
              imagePath download_dir m := fun m hm =>
            imagePath_ne download_dir k m hi5 (hlt' m hm)
              (fun he => hmem (he ▸ hm))
          rw [ih4 _ hframe]
          simp [FS.writeFile, hg, Except.toOption]
        · exact ih3 k hk
      · intro p hp
        have hp' : ∀ m ∈ rest, p ≠ imagePath download_dir m := fun m hm =>
          hp m (List.mem_cons_of_mem _ hm)
        rw [ih4 p hp']
        have hpi : p ≠ imagePath download_dir i :=
          hp i (List.mem_cons_self _ _)
        simp [FS.writeFile, hpi]

/-- Failure of any scheduled fetch makes the whole loop fail. -/
theorem downloadLoop_err (get : String → Except String (List Nat))
    (channel_url download_dir : String) :
    ∀ (is : List Nat) (fs : FS),
      (∃ i ∈ is, (get (imageURL channel_url i)).isOk = false) →
      (downloadLoop get channel_url download_dir is fs).2.1.isSome = true := by
  intro is
  induction is with
  | nil => intro fs h; obtain ⟨i, hi, _⟩ := h; cases hi
  | cons i rest ih =>
    intro fs h
    simp only [downloadLoop]
    cases hg : get (imageURL channel_url i) with
    | error er => rfl
    | ok data =>
      obtain ⟨k, hk, hfail⟩ := h
      rcases List.mem_cons.mp hk with hk | hk
      · subst hk; rw [hg] at hfail; cases hfail
      · exact ih _ ⟨k, hk, hfail⟩

/-- The target directory exists after `mkdirs`, and `mkdirs` is
idempotent. -/
theorem mkdirs_mem (fs : FS) (d : String) : d ∈ (fs.mkdirs d).dirs := by
  by_cases h : d ∈ fs.dirs <;> simp [FS.mkdirs, h]

theorem mkdirs_idem (fs : FS) (d : String) :
    (fs.mkdirs d).mkdirs d = fs.mkdirs d := by
  by_cases h : d ∈ fs.dirs <;> simp [FS.mkdirs, h]

theorem mkdirs_files (fs : FS) (d : String) :
    (fs.mkdirs d).files = fs.files := by
  by_cases h : d ∈ fs.dirs <;> simp [FS.mkdirs, h]

/-! ### Lemmas about the detection loop -/

theorem except_map_isOk {α β : Type} (f : α → β) (x : Except String α) :
    (x.map f).isOk = x.isOk := by
  cases x <;> rfl

theorem detectLoop_detect_events (decode : String → Except String Unit)
    (infer : String → Except String Results) :
    ∀ files : List String,
      ∀ e ∈ (detectLoop decode infer files).1, e.isDetectEvent = true := by
  intro files
  induction files with
  | nil => intro e he; cases he
  | cons f fs ih =>
    intro e he
    simp only [detectLoop] at he
    cases hp : processImage decode infer f with
    | error er =>
      simp only [hp, List.mem_singleton] at he
      subst he; rfl
    | ok r =>
      simp only [hp, List.mem_cons] at he
      rcases he with he | he
      · subst he; rfl
      · exact ih e he

/-- Success characterization of the detection loop: one group per file, in
order, keyed by the file's name. -/
theorem detectLoop_ok (decode : String → Except String Unit)
    (infer : String → Except String Results) :
    ∀ files : List String,
      (∀ f ∈ files, (processImage decode infer f).isOk = true) →
      ∃ ds, (detectLoop decode infer files).2 = .ok ds ∧
        ds.length = files.length ∧ ds.map Detection.image = files := by
  intro files
  induction files with
  | nil => intro _; exact ⟨[], rfl, rfl, rfl⟩
  | cons f fs ih =>
    intro h
    have hf : (processImage decode infer f).isOk = true :=
      h f (List.mem_cons_self _ _)
    cases hp : processImage decode infer f with
    | error er => rw [hp] at hf; cases hf
    | ok r =>
      obtain ⟨ds, hds, hlen, hmap⟩ :=
        ih (fun g hg => h g (List.mem_cons_of_mem _ hg))
      refine ⟨mkDetection f r :: ds, ?_, ?_, ?_⟩
      · simp only [detectLoop, hp, hds, Except.map]
      · simp [hlen]
      · simp [hmap, mkDetection]

/-- A decode failure anywhere in the listing fails the whole loop. -/
theorem detectLoop_err (decode : String → Except String Unit)
    (infer : String → Except String Results) :
    ∀ (files : List String) (f e : String), f ∈ files →
      decode f = .error e →
      (detectLoop decode infer files).2.isOk = false := by
  intro files
  induction files with
  | nil => intro f e hf _; cases hf
  | cons g gs ih =>
    intro f e hf hd
    simp only [detectLoop]
    cases hp : processImage decode infer g with
    | error er => rfl
    | ok r =>
      rcases List.mem_cons.mp hf with hfg | hfg
      · subst hfg
        rw [processImage, hd] at hp
        cases hp
      · rw [except_map_isOk]
        exact ih f e hfg hd

/-! ### Lemmas about the driver -/

theorem fetch_event_kinds {e : Event} (h : e.isFetchEvent = true) :
    e.isModelEvent = false ∧ e.isDetectEvent = false ∧
    e.isDbEvent = false ∧ e.isCloseEvent = false := by
  cases e <;> simp_all [Event.isFetchEvent, Event.isModelEvent,
    Event.isDetectEvent, Event.isDbEvent, Event.isCloseEvent]

theorem detect_event_kinds {e : Event} (h : e.isDetectEvent = true) :
    e.isModelEvent = false ∧ e.isFetchEvent = false ∧
    e.isDbEvent = false ∧ e.isCloseEvent = false := by
  cases e <;> simp_all [Event.isFetchEvent, Event.isModelEvent,
    Event.isDetectEvent, Event.isDbEvent, Event.isCloseEvent]

theorem db_event_kinds {e : Event} (h : e.isDbEvent = true) :
    e.isModelEvent = false ∧ e.isFetchEvent = false ∧
    e.isDetectEvent = false ∧ e.isCloseEvent = false := by
  cases e <;> simp_all [Event.isFetchEvent, Event.isModelEvent,
    Event.isDetectEvent, Event.isDbEvent, Event.isCloseEvent]

theorem filter_not_kind (p : Event → Bool) (tr : List Event)
    (h : ∀ e ∈ tr, p e = false) : tr.filter p = [] :=
  List.filter_eq_nil_iff.mpr (by intro a ha; simp [h a ha])

theorem filter_all_kind (p : Event → Bool) (tr : List Event)
    (h : ∀ e ∈ tr, p e = true) : tr.filter p = tr :=
  List.filter_eq_self.mpr h

/-- A run trace made of the model attempt, then fetch events, then detect
events, then database events, then at most a close event, equals the
concatenation of its per-stage filters in stage order. -/
theorem trace_partition (t2 t3 t4 t5 : List Event)
    (h2 : ∀ e ∈ t2, e.isFetchEvent = true)
    (h3 : ∀ e ∈ t3, e.isDetectEvent = true)
    (h4 : ∀ e ∈ t4, e.isDbEvent = true)
    (h5 : t5 = [] ∨ t5 = [Event.connClose]) :
    Event.loadModel :: (t2 ++ t3 ++ t4 ++ t5) =
      (Event.loadModel :: (t2 ++ t3 ++ t4 ++ t5)).filter
        Event.isModelEvent ++
      (Event.loadModel :: (t2 ++ t3 ++ t4 ++ t5)).filter
        Event.isFetchEvent ++
      (Event.loadModel :: (t2 ++ t3 ++ t4 ++ t5)).filter
        Event.isDetectEvent ++
      (Event.loadModel :: (t2 ++ t3 ++ t4 ++ t5)).filter Event.isDbEvent ++
      (Event.loadModel :: (t2 ++ t3 ++ t4 ++ t5)).filter
        Event.isCloseEvent := by
  have e2m := filter_not_kind Event.isModelEvent t2
    (fun e he => (fetch_event_kinds (h2 e he)).1)
  have e2d := filter_not_kind Event.isDetectEvent t2
    (fun e he => (fetch_event_kinds (h2 e he)).2.1)
  have e2b := filter_not_kind Event.isDbEvent t2
    (fun e he => (fetch_event_kinds (h2 e he)).2.2.1)
  have e2c := filter_not_kind Event.isCloseEvent t2
    (fun e he => (fetch_event_kinds (h2 e he)).2.2.2)
  have e2f := filter_all_kind Event.isFetchEvent t2 h2
  have e3m := filter_not_kind Event.isModelEvent t3
    (fun e he => (detect_event_kinds (h3 e he)).1)
  have e3f := filter_not_kind Event.isFetchEvent t3
    (fun e he => (detect_event_kinds (h3 e he)).2.1)
  have e3b := filter_not_kind Event.isDbEvent t3
    (fun e he => (detect_event_kinds (h3 e he)).2.2.1)
  have e3c := filter_not_kind Event.isCloseEvent t3
    (fun e he => (detect_event_kinds (h3 e he)).2.2.2)
  have e3d := filter_all_kind Event.isDetectEvent t3 h3
  have e4m := filter_not_kind Event.isModelEvent t4
    (fun e he => (db_event_kinds (h4 e he)).1)
  have e4f := filter_not_kind Event.isFetchEvent t4
    (fun e he => (db_event_kinds (h4 e he)).2.1)
  have e4d := filter_not_kind Event.isDetectEvent t4
    (fun e he => (db_event_kinds (h4 e he)).2.2.1)
  have e4c := filter_not_kind Event.isCloseEvent t4
    (fun e he => (db_event_kinds (h4 e he)).2.2.2)
  have e4b := filter_all_kind Event.isDbEvent t4 h4
  rcases h5 with rfl | rfl <;>
    simp [List.filter_cons, List.filter_append, e2m, e2d, e2b, e2c, e2f,
      e3m, e3f, e3b, e3c, e3d, e4m, e4f, e4d, e4c, e4b,
      Event.isModelEvent, Event.isFetchEvent, Event.isDetectEvent,
      Event.isDbEvent, Event.isCloseEvent]

/-- The events of `store_detection_results` are those of its insert loop. -/
theorem store_trace_eq (failAt : Nat → Bool) (c : Conn)
    (ds : List Detection) :
    (store_detection_results failAt c ds).1 =
      (insertLoop failAt 0 c (allTriples ds)).1 := by
  simp only [store_detection_results]
  cases (insertLoop failAt 0 c (allTriples ds)).2.1 <;> rfl

theorem store_db_events (failAt : Nat → Bool) (c : Conn)
    (ds : List Detection) :
    ∀ e ∈ (store_detection_results failAt c ds).1, e.isDbEvent = true := by
  intro e he
  rw [store_trace_eq] at he
  rw [(insertLoop_trace failAt (allTriples ds) 0 c).1 e he]
  rfl

theorem create_trace_eq (fail : Bool) (c : Conn) :
    (create_database_table fail c).1 = [Event.createTable] := by
  cases fail <;> rfl

theorem countP_range5_le_one (j : Nat) :
    (List.range 5).countP (fun i => decide (i = j)) ≤ 1 := by
  by_cases h5 : j < 5
  · interval_cases j <;> decide
  · have h0 : (List.range 5).countP (fun i => decide (i = j)) = 0 := by
      rw [List.countP_eq_zero]
      intro a ha
      simp only [List.mem_range] at ha
      simp only [decide_eq_true_eq]
      omega
    omega

/-! ### Claim theorems -/

/-- C1: every call to `store_detection_results` with a non-empty list of
detection groups runs all its inserts in one transaction: either the call
reports no error and commits exactly one row per triple (and the journal is
empty afterwards), or some insert failed, the transaction rolled back so
the committed rows are exactly those from before the call, and the error
propagates; every emitted event is a single insert attempt and there are at
most as many attempts as triples (no per-record retry). -/
theorem c1_store_single_transaction (failAt : Nat → Bool) (c : Conn)
    (ds : List Detection) (hpend : c.pending = []) (_hne : ds ≠ []) :
    (((store_detection_results failAt c ds).2.1 = none ∧
      (store_detection_results failAt c ds).2.2.committed =
        c.committed ++ rowsOf ds ∧
      (rowsOf ds).length = (allTriples ds).length ∧
      (store_detection_results failAt c ds).2.2.pending = []) ∨
     ((store_detection_results failAt c ds).2.1.isSome = true ∧
      (store_detection_results failAt c ds).2.2.committed = c.committed ∧
      (store_detection_results failAt c ds).2.2.pending = [])) ∧
    (∀ e ∈ (store_detection_results failAt c ds).1, e = Event.insertRow) ∧
    (store_detection_results failAt c ds).1.length ≤
      (allTriples ds).length := by
  have hcom := insertLoop_committed failAt (allTriples ds) 0 c
  have htr := insertLoop_trace failAt (allTriples ds) 0 c
  constructor
  · cases hres : (insertLoop failAt 0 c (allTriples ds)).2.1 with
    | none =>
      left
      obtain ⟨hok1, hok2⟩ := insertLoop_ok failAt (allTriples ds) 0 c hres
      simp only [store_detection_results, hres]
      refine ⟨by simp, ?_, hok2, by simp [Conn.commit]⟩
      simp only [Conn.commit, hcom, hok1, hpend, List.nil_append]
      rfl
    | some e =>
      right
      simp only [store_detection_results, hres]
      exact ⟨by simp, by simp [Conn.rollback, hcom], by simp [Conn.rollback]⟩
  · cases hres : (insertLoop failAt 0 c (allTriples ds)).2.1 with
    | none => simpa [store_detection_results, hres] using htr
    | some e => simpa [store_detection_results, hres] using htr

theorem c1_store_single_transaction_witness :
    c1Conn.pending = [] ∧ c1Dets ≠ [] ∧
    ((((store_detection_results (fun _ => true) c1Conn c1Dets).2.1 = none ∧
      (store_detection_results (fun _ => true) c1Conn c1Dets).2.2.committed =
        c1Conn.committed ++ rowsOf c1Dets ∧
      (rowsOf c1Dets).length = (allTriples c1Dets).length ∧
      (store_detection_results (fun _ => true) c1Conn c1Dets).2.2.pending = []) ∨
     ((store_detection_results (fun _ => true) c1Conn c1Dets).2.1.isSome = true ∧
      (store_detection_results (fun _ => true) c1Conn c1Dets).2.2.committed =
        c1Conn.committed ∧
      (store_detection_results (fun _ => true) c1Conn c1Dets).2.2.pending = [])) ∧
    (∀ e ∈ (store_detection_results (fun _ => true) c1Conn c1Dets).1,
      e = Event.insertRow) ∧
    (store_detection_results (fun _ => true) c1Conn c1Dets).1.length ≤
      (allTriples c1Dets).length) :=
  ⟨rfl, by decide,
    c1_store_single_transaction (fun _ => true) c1Conn c1Dets rfl (by decide)⟩

/-- C2: when every group's three arrays have equal length and every box has
at least four components, `store_detection_results` succeeds and commits
exactly one complete seven-field row per (box, label, confidence) triple:
the committed rows afterwards are the rows from before followed by the
implied rows, and their number grows by the total number of triples. -/
theorem c2_store_exact_row_count (c : Conn) (ds : List Detection)
    (hpend : c.pending = []) (htab : tableName ∈ c.tables)
    (hlen : ∀ d ∈ ds, d.labels.length = d.boxes.length ∧
      d.confidences.length = d.boxes.length)
    (hbox : ∀ d ∈ ds, ∀ b ∈ d.boxes, 4 ≤ b.length) :
    (store_detection_results (fun _ => false) c ds).2.1 = none ∧
    (store_detection_results (fun _ => false) c ds).2.2.committed =
      c.committed ++ rowsOf ds ∧
    (rowsOf ds).length = totalBoxes ds ∧
    (store_detection_results (fun _ => false) c ds).2.2.committed.length =
      c.committed.length + totalBoxes ds ∧
    (store_detection_results (fun _ => false) c ds).2.2.pending = [] := by
  have hbox' : ∀ d ∈ ds, ∀ b ∈ d.boxes.take (minLen d), 4 ≤ b.length := by
    intro d hd b hb
    exact hbox d hd b (List.take_subset _ _ hb)
  have hwf := allTriples_isSome hbox'
  have hmin : totalMin ds = totalBoxes ds := by
    unfold totalMin totalBoxes
    congr 1
    apply List.map_congr_left
    intro d hd
    obtain ⟨h1, h2⟩ := hlen d hd
    simp [minLen, h1, h2]
  have hlenRows : (rowsOf ds).length = totalBoxes ds := by
    rw [rowsOf, filterMap_length_of_isSome _ _ hwf, allTriples_length, hmin]
  have h := store_no_fail c ds hpend htab hwf
  rw [h]
  refine ⟨rfl, rfl, hlenRows, ?_, rfl⟩
  simp [hlenRows]

theorem c2_store_exact_row_count_witness :
    c2Conn.pending = [] ∧ tableName ∈ c2Conn.tables ∧
    (∀ d ∈ c2Dets, d.labels.length = d.boxes.length ∧
      d.confidences.length = d.boxes.length) ∧
    (∀ d ∈ c2Dets, ∀ b ∈ d.boxes, 4 ≤ b.length) ∧
    ((store_detection_results (fun _ => false) c2Conn c2Dets).2.1 = none ∧
    (store_detection_results (fun _ => false) c2Conn c2Dets).2.2.committed =
      c2Conn.committed ++ rowsOf c2Dets ∧
    (rowsOf c2Dets).length = totalBoxes c2Dets ∧
    (store_detection_results (fun _ => false) c2Conn c2Dets).2.2.committed.length =
      c2Conn.committed.length + totalBoxes c2Dets ∧
    (store_detection_results (fun _ => false) c2Conn c2Dets).2.2.pending = []) :=
  ⟨rfl, by decide, by decide, by decide,
    c2_store_exact_row_count c2Conn c2Dets rfl (by decide) (by decide)
      (by decide)⟩

/-- C10: for groups whose parallel arrays may have unequal lengths (with the
boxes that actually get zipped well formed), `store_detection_results`
reports no error and inserts exactly the first `min` positions of each
group: the zipped triples of a group are exactly the zip of the three
arrays truncated to the minimum length, trailing entries of longer arrays
are dropped, and the committed row count grows by the sum of the per-group
minima. -/
theorem c10_store_zip_truncates (c : Conn) (ds : List Detection)
    (hpend : c.pending = []) (htab : tableName ∈ c.tables)
    (hbox : ∀ d ∈ ds, ∀ b ∈ d.boxes.take (minLen d), 4 ≤ b.length) :
    (store_detection_results (fun _ => false) c ds).2.1 = none ∧
    (store_detection_results (fun _ => false) c ds).2.2.committed =
      c.committed ++ rowsOf ds ∧
    (rowsOf ds).length = totalMin ds ∧
    (store_detection_results (fun _ => false) c ds).2.2.committed.length =
      c.committed.length + totalMin ds ∧
    (∀ d ∈ ds, detectionTriples d =
      zip3 (d.boxes.take (minLen d)) (d.labels.take (minLen d))
        (d.confidences.take (minLen d))) := by
  have hwf := allTriples_isSome hbox
  have hlenRows : (rowsOf ds).length = totalMin ds := by
    rw [rowsOf, filterMap_length_of_isSome _ _ hwf, allTriples_length]
  have h := store_no_fail c ds hpend htab hwf
  rw [h]
  refine ⟨rfl, rfl, hlenRows, by simp [hlenRows], ?_⟩
  intro d _
  exact zip3_take d.boxes d.labels d.confidences

theorem c10_store_zip_truncates_witness :
    c10Conn.pending = [] ∧ tableName ∈ c10Conn.tables ∧
    (∀ d ∈ c10Dets, ∀ b ∈ d.boxes.take (minLen d), 4 ≤ b.length) ∧
    ((store_detection_results (fun _ => false) c10Conn c10Dets).2.1 = none ∧
    (store_detection_results (fun _ => false) c10Conn c10Dets).2.2.committed =
      c10Conn.committed ++ rowsOf c10Dets ∧
    (rowsOf c10Dets).length = totalMin c10Dets ∧
    (store_detection_results (fun _ => false) c10Conn c10Dets).2.2.committed.length =
      c10Conn.committed.length + totalMin c10Dets ∧
    (∀ d ∈ c10Dets, detectionTriples d =
      zip3 (d.boxes.take (minLen d)) (d.labels.take (minLen d))
        (d.confidences.take (minLen d)))) :=
  ⟨rfl, by decide, by decide,
    c10_store_zip_truncates c10Conn c10Dets rfl (by decide) (by decide)⟩

/-- C3: when every matching image file of the directory decodes and infers
without error, `detect_objects_in_images` returns exactly one detection
group per matching file, in order, keyed by the file's name; on a listing
with no matching files it returns the empty list. -/
theorem c3_detect_group_per_image (decode : String → Except String Unit)
    (infer : String → Except String Results) (files : List String)
    (hok : ∀ f ∈ globJpg files, (processImage decode infer f).isOk = true) :
    (∃ ds, (detect_objects_in_images decode infer files).2 = .ok ds ∧
      ds.length = (globJpg files).length ∧
      ds.map Detection.image = globJpg files) ∧
    (detect_objects_in_images decode infer []).2 = .ok [] := by
  refine ⟨?_, rfl⟩
  obtain ⟨ds, hds, hlen, hmap⟩ := detectLoop_ok decode infer (globJpg files) hok
  exact ⟨ds, hds, hlen, hmap⟩

theorem c3_detect_group_per_image_witness :
    (∀ f ∈ globJpg c3Files, (processImage c3Decode c3Infer f).isOk = true) ∧
    ((∃ ds, (detect_objects_in_images c3Decode c3Infer c3Files).2 = .ok ds ∧
      ds.length = (globJpg c3Files).length ∧
      ds.map Detection.image = globJpg c3Files) ∧
    (detect_objects_in_images c3Decode c3Infer []).2 = .ok []) :=
  ⟨by decide, c3_detect_group_per_image c3Decode c3Infer c3Files (by decide)⟩

/-- C9: if any matching image file of the listing fails to decode, the
whole detection batch fails: `detect_objects_in_images` does not return a
detection list at all, whatever the other files would have produced. -/
theorem c9_detect_abort_on_decode_failure (decode : String → Except String Unit)
    (infer : String → Except String Results) (files : List String)
    (f e : String) (hf : f ∈ globJpg files) (he : decode f = .error e) :
    (detect_objects_in_images decode infer files).2.isOk = false :=
  detectLoop_err decode infer (globJpg files) f e hf he

theorem c9_detect_abort_on_decode_failure_witness :
    "image_1.jpg" ∈ globJpg c9Files ∧
    c9Decode "image_1.jpg" = .error "cannot decode image" ∧
    (detect_objects_in_images c9Decode c9Infer c9Files).2.isOk = false :=
  ⟨by decide, rfl,
    c9_detect_abort_on_decode_failure c9Decode c9Infer c9Files
      "image_1.jpg" "cannot decode image" (by decide) rfl⟩

/-- C5: when all five GETs succeed, `download_images_from_telegram` creates
the target directory if absent (idempotently), reports no error, and the
resulting filesystem holds, for each index below five, the raw response
body of the GET for that index at the per-index path, with every other
path unchanged. -/
theorem c5_download_five_files (get : String → Except String (List Nat))
    (channel_url download_dir : String) (fs : FS)
    (hok : ∀ i < 5, (get (imageURL channel_url i)).isOk = true) :
    (download_images_from_telegram get channel_url fs download_dir).2.1 =
      none ∧
    download_dir ∈
      (download_images_from_telegram get channel_url fs download_dir).2.2.dirs ∧
    (fs.mkdirs download_dir).mkdirs download_dir = fs.mkdirs download_dir ∧
    (∀ i < 5,
      (download_images_from_telegram get channel_url fs download_dir).2.2.files
          (imagePath download_dir i) =
        (get (imageURL channel_url i)).toOption) ∧
    (∀ p, (∀ i < 5, p ≠ imagePath download_dir i) →
      (download_images_from_telegram get channel_url fs download_dir).2.2.files
          p = fs.files p) := by
  obtain ⟨h1, h2, h3, h4⟩ := downloadLoop_ok get channel_url download_dir
    (List.range 5) (fs.mkdirs download_dir) (List.nodup_range 5)
    (fun i hi => List.mem_range.mp hi)
    (fun i hi => hok i (List.mem_range.mp hi))
  simp only [download_images_from_telegram]
  refine ⟨h1, ?_, mkdirs_idem fs download_dir, ?_, ?_⟩
  · rw [h2]
    exact mkdirs_mem fs download_dir
  · intro i hi
    exact h3 i (List.mem_range.mpr hi)
  · intro p hp
    rw [h4 p (fun i hi => hp i (List.mem_range.mp hi)), mkdirs_files]

theorem c5_download_five_files_witness :
    (∀ i < 5, (c5Get (imageURL channelURL i)).isOk = true) ∧
    ((download_images_from_telegram c5Get channelURL c5FS "images").2.1 =
      none ∧
    "images" ∈
      (download_images_from_telegram c5Get channelURL c5FS "images").2.2.dirs ∧
    (c5FS.mkdirs "images").mkdirs "images" = c5FS.mkdirs "images" ∧
    (∀ i < 5,
      (download_images_from_telegram c5Get channelURL c5FS "images").2.2.files
          (imagePath "images" i) =
        (c5Get (imageURL channelURL i)).toOption) ∧
    (∀ p, (∀ i < 5, p ≠ imagePath "images" i) →
      (download_images_from_telegram c5Get channelURL c5FS "images").2.2.files
          p = c5FS.files p)) :=
  ⟨by decide, c5_download_five_files c5Get channelURL "images" c5FS (by decide)⟩

/-- C6: with no statement error, running `create_database_table` twice on
the same connection reports no error on either call, the second call
changes nothing, and exactly one `object_detections` table exists
afterwards. -/
theorem c6_create_table_idempotent (c : Conn)
    (hcount : c.tables.count tableName ≤ 1) :
    (create_database_table false c).2.1 = none ∧
    (create_database_table false
      (create_database_table false c).2.2).2.1 = none ∧
    (create_database_table false
        (create_database_table false c).2.2).2.2 =
      (create_database_table false c).2.2 ∧
    (create_database_table false c).2.2.tables.count tableName = 1 := by
  by_cases h : tableName ∈ c.tables
  · have h1 : 0 < c.tables.count tableName := List.count_pos_iff.mpr h
    refine ⟨rfl, rfl, ?_, ?_⟩
    · simp [create_database_table, createTableIfNotExists, h]
    · simp only [create_database_table, createTableIfNotExists, h, if_true,
        if_false, Bool.false_eq_true]
      omega
  · have h0 : c.tables.count tableName = 0 := List.count_eq_zero.mpr h
    have hmem : tableName ∈ c.tables ++ [tableName] := by simp
    refine ⟨rfl, rfl, ?_, ?_⟩
    · simp [create_database_table, createTableIfNotExists, h, hmem]
    · simp only [create_database_table, createTableIfNotExists, h, if_true,
        if_false, Bool.false_eq_true]
      simp [List.count_append, h0]

theorem c6_create_table_idempotent_witness :
    c6Conn.tables.count tableName ≤ 1 ∧
    ((create_database_table false c6Conn).2.1 = none ∧
    (create_database_table false
      (create_database_table false c6Conn).2.2).2.1 = none ∧
    (create_database_table false
        (create_database_table false c6Conn).2.2).2.2 =
      (create_database_table false c6Conn).2.2 ∧
    (create_database_table false c6Conn).2.2.tables.count tableName = 1) :=
  ⟨by decide, c6_create_table_idempotent c6Conn (by decide)⟩

theorem c4_counterexample_leaked_connection :
    (main c4World c4Db c4FS).err.isSome = true ∧
    (main c4World c4Db c4FS).closed = false :=
  ⟨rfl, rfl⟩

/-- C4 (amended): `main` closes the connection exactly on the full-success
exit path; on every exit path on which some stage raised, the function
terminates without closing the connection. -/
theorem c4_close_only_on_success (w : World) (db : Conn) (fs0 : FS) :
    (main w db fs0).closed = true ↔ (main w db fs0).err = none := by
  simp only [main]
  split
  · simp
  · split
    · simp
    · split
      · simp
      · split
        · simp
        · split <;> simp

/-- C7: if the model loads but any of the five GETs fails, the run ends
with an error before any detection or database event is emitted, the
connection's tables and committed rows are untouched, the connection is not
closed, and no GET is attempted twice (no retry). -/
theorem c7_fetch_failure_aborts (w : World) (db : Conn) (fs0 : FS)
    (hm : w.modelOk = true) (i : Nat) (hi : i < 5) (e : String)
    (he : w.get (imageURL channelURL i) = .error e) :
    (main w db fs0).err.isSome = true ∧
    (main w db fs0).trace.filter Event.isDetectEvent = [] ∧
    (main w db fs0).trace.filter Event.isDbEvent = [] ∧
    (main w db fs0).closed = false ∧
    (main w db fs0).conn.committed = db.committed ∧
    (main w db fs0).conn.tables = db.tables ∧
    (∀ j, (main w db fs0).trace.countP
        (fun ev => decide (ev = Event.httpGet j)) ≤ 1) := by
  have hsm : setup_yolo_model w.modelOk = .ok () := by
    rw [hm]; rfl
  have hfail : (download_images_from_telegram w.get channelURL fs0).2.1.isSome
      = true := by
    show (downloadLoop w.get channelURL "images" (List.range 5)
      (fs0.mkdirs "images")).2.1.isSome = true
    apply downloadLoop_err
    refine ⟨i, List.mem_range.mpr hi, ?_⟩
    rw [he]; rfl
  have hFet : ∀ ev ∈ (download_images_from_telegram w.get channelURL fs0).1,
      ev.isFetchEvent = true := fun ev hev =>
    downloadLoop_fetch_events w.get channelURL "images" (List.range 5)
      (fs0.mkdirs "images") ev hev
  cases hF : (download_images_from_telegram w.get channelURL fs0).2.1 with
  | none => rw [hF] at hfail; cases hfail
  | some er =>
    have hmain : main w db fs0 =
        { trace := Event.loadModel ::
            (download_images_from_telegram w.get channelURL fs0).1,
          err := some er, conn := { db with pending := [] },
          fs := (download_images_from_telegram w.get channelURL fs0).2.2,
          closed := false } := by
      simp only [main, hsm, hF]
    rw [hmain]
    refine ⟨rfl, ?_, ?_, rfl, rfl, rfl, ?_⟩
    · exact filter_not_kind _ _ (fun ev hev => by
        rcases List.mem_cons.mp hev with rfl | hev'
        · rfl
        · exact (fetch_event_kinds (hFet ev hev')).2.1)
    · exact filter_not_kind _ _ (fun ev hev => by
        rcases List.mem_cons.mp hev with rfl | hev'
        · rfl
        · exact (fetch_event_kinds (hFet ev hev')).2.2.1)
    · intro j
      have h1 : (Event.loadModel ::
          (download_images_from_telegram w.get channelURL fs0).1).countP
            (fun ev => decide (ev = Event.httpGet j)) =
          (download_images_from_telegram w.get channelURL fs0).1.countP
            (fun ev => decide (ev = Event.httpGet j)) := by
        rw [List.countP_cons]
        simp
      rw [h1]
      exact le_trans
        (downloadLoop_count_httpGet w.get channelURL "images" j
          (List.range 5) (fs0.mkdirs "images"))
        (countP_range5_le_one j)

theorem c7_fetch_failure_aborts_witness :
    c7World.modelOk = true ∧ 2 < 5 ∧
    c7World.get (imageURL channelURL 2) = .error "network down" ∧
    (main c7World c7Db c7FS).err.isSome = true ∧
    (main c7World c7Db c7FS).trace.filter Event.isDetectEvent = [] ∧
    (main c7World c7Db c7FS).trace.filter Event.isDbEvent = [] ∧
    (main c7World c7Db c7FS).closed = false ∧
    (main c7World c7Db c7FS).trace.countP
      (fun ev => decide (ev = Event.httpGet 2)) ≤ 1 := by
  have h := c7_fetch_failure_aborts c7World c7Db c7FS rfl 2 (by decide)
    "network down" (by simp [c7World])
  exact ⟨rfl, by decide, by simp [c7World], h.1, h.2.1, h.2.2.1, h.2.2.2.1,
    h.2.2.2.2.2.2 2⟩

/-- C8: the trace of every run is its per-stage filters in stage order
(model load, then fetch, then detect, then database writes, then close), a
failed model load stops the run at once, no detection event is emitted
unless the whole fetch succeeded, and no database event is emitted — and
the connection's schema and committed rows are unchanged — unless the
whole detection stage succeeded. -/
theorem c8_linear_stage_order (w : World) (db : Conn) (fs0 : FS) :
    ((main w db fs0).trace =
      (main w db fs0).trace.filter Event.isModelEvent ++
      (main w db fs0).trace.filter Event.isFetchEvent ++
      (main w db fs0).trace.filter Event.isDetectEvent ++
      (main w db fs0).trace.filter Event.isDbEvent ++
      (main w db fs0).trace.filter Event.isCloseEvent) ∧
    (w.modelOk = true ∨ (main w db fs0).trace = [Event.loadModel]) ∧
    ((download_images_from_telegram w.get channelURL fs0).2.1 = none ∨
      (main w db fs0).trace.filter Event.isDetectEvent = []) ∧
    ((∃ ds, (detect_objects_in_images w.decode w.infer w.imageFiles).2 =
        .ok ds) ∨
      ((main w db fs0).trace.filter Event.isDbEvent = [] ∧
       (main w db fs0).conn.committed = db.committed ∧
       (main w db fs0).conn.tables = db.tables)) := by
  have hFet : ∀ ev ∈ (download_images_from_telegram w.get channelURL fs0).1,
      ev.isFetchEvent = true := fun ev hev =>
    downloadLoop_fetch_events w.get channelURL "images" (List.range 5)
      (fs0.mkdirs "images") ev hev
  have hDet : ∀ ev ∈
      (detect_objects_in_images w.decode w.infer w.imageFiles).1,
      ev.isDetectEvent = true := fun ev hev =>
    detectLoop_detect_events w.decode w.infer (globJpg w.imageFiles) ev hev
  cases hmo : w.modelOk with
  | false =>
    have hmain : main w db fs0 =
        { trace := [Event.loadModel], err := some "error loading model",
          conn := { db with pending := [] }, fs := fs0, closed := false } := by
      simp [main, setup_yolo_model, hmo]
    rw [hmain]
    exact ⟨rfl, Or.inr rfl, Or.inr rfl, Or.inr ⟨rfl, rfl, rfl⟩⟩
  | true =>
    have hsm : setup_yolo_model w.modelOk = .ok () := by rw [hmo]; rfl
    cases hF : (download_images_from_telegram w.get channelURL fs0).2.1 with
    | some er =>
      have hmain : main w db fs0 =
          { trace := Event.loadModel ::
              (download_images_from_telegram w.get channelURL fs0).1,
            err := some er, conn := { db with pending := [] },
            fs := (download_images_from_telegram w.get channelURL fs0).2.2,
            closed := false } := by
        simp only [main, hsm, hF]
      rw [hmain]
      have hdetf : (Event.loadModel ::
          (download_images_from_telegram w.get channelURL fs0).1).filter
            Event.isDetectEvent = [] :=
        filter_not_kind _ _ (fun ev hev => by
          rcases List.mem_cons.mp hev with rfl | hev'
          · rfl
          · exact (fetch_event_kinds (hFet ev hev')).2.1)
      have hdbf : (Event.loadModel ::
          (download_images_from_telegram w.get channelURL fs0).1).filter
            Event.isDbEvent = [] :=
        filter_not_kind _ _ (fun ev hev => by
          rcases List.mem_cons.mp hev with rfl | hev'
          · rfl
          · exact (fetch_event_kinds (hFet ev hev')).2.2.1)
      refine ⟨?_, Or.inl rfl, Or.inr hdetf, Or.inr ⟨hdbf, rfl, rfl⟩⟩
      have hshape : Event.loadModel ::
          (download_images_from_telegram w.get channelURL fs0).1 =
          Event.loadModel ::
          ((download_images_from_telegram w.get channelURL fs0).1 ++
            [] ++ [] ++ []) := by simp
      rw [hshape]
      exact trace_partition _ [] [] [] hFet (fun e he => absurd he
        (List.not_mem_nil e)) (fun e he => absurd he (List.not_mem_nil e))
        (Or.inl rfl)
    | none =>
      cases hD : (detect_objects_in_images w.decode w.infer w.imageFiles).2
        with
      | error er =>
        have hmain : main w db fs0 =
            { trace := Event.loadModel ::
                ((download_images_from_telegram w.get channelURL fs0).1 ++
                 (detect_objects_in_images w.decode w.infer w.imageFiles).1),
              err := some er, conn := { db with pending := [] },
              fs := (download_images_from_telegram w.get channelURL fs0).2.2,
              closed := false } := by
          simp only [main, hsm, hF, hD]
        rw [hmain]
        have hdbf : (Event.loadModel ::
            ((download_images_from_telegram w.get channelURL fs0).1 ++
             (detect_objects_in_images w.decode w.infer w.imageFiles).1)).filter
              Event.isDbEvent = [] :=
          filter_not_kind _ _ (fun ev hev => by
            rcases List.mem_cons.mp hev with rfl | hev'
            · rfl
            · rcases List.mem_append.mp hev' with h2 | h2
              · exact (fetch_event_kinds (hFet ev h2)).2.2.1
              · exact (detect_event_kinds (hDet ev h2)).2.2.1)
        refine ⟨?_, Or.inl rfl, Or.inl rfl, Or.inr ⟨hdbf, rfl, rfl⟩⟩
        have hshape : Event.loadModel ::
            ((download_images_from_telegram w.get channelURL fs0).1 ++
             (detect_objects_in_images w.decode w.infer w.imageFiles).1) =
            Event.loadModel ::
            ((download_images_from_telegram w.get channelURL fs0).1 ++
             (detect_objects_in_images w.decode w.infer w.imageFiles).1 ++
             [] ++ []) := by simp
        rw [hshape]
        exact trace_partition _ _ [] [] hFet hDet
          (fun e he => absurd he (List.not_mem_nil e)) (Or.inl rfl)
      | ok dets =>
        cases hC : w.createFail with
        | true =>
          have hcr : create_database_table w.createFail
              { db with pending := [] } =
              ([Event.createTable], some "error creating table",
                { db with pending := [] }) := by
            rw [hC]; rfl
          have hmain : main w db fs0 =
              { trace := Event.loadModel ::
                  ((download_images_from_telegram w.get channelURL fs0).1 ++
                   (detect_objects_in_images w.decode w.infer
                     w.imageFiles).1 ++ [Event.createTable]),
                err := some "error creating table",
                conn := { db with pending := [] },
                fs := (download_images_from_telegram w.get channelURL fs0).2.2,
                closed := false } := by
            simp only [main, hsm, hF, hD, hcr]
          rw [hmain]
          refine ⟨?_, Or.inl rfl, Or.inl rfl, Or.inl ⟨dets, rfl⟩⟩
          have hshape : Event.loadModel ::
              ((download_images_from_telegram w.get channelURL fs0).1 ++
               (detect_objects_in_images w.decode w.infer w.imageFiles).1 ++
               [Event.createTable]) =
              Event.loadModel ::
              ((download_images_from_telegram w.get channelURL fs0).1 ++
               (detect_objects_in_images w.decode w.infer w.imageFiles).1 ++
               [Event.createTable] ++ []) := by simp
          rw [hshape]
          exact trace_partition _ _ [Event.createTable] [] hFet hDet
            (fun e he => by
              rcases List.mem_singleton.mp he with rfl
              rfl)
            (Or.inl rfl)
        | false =>
          have hcr : create_database_table w.createFail
              { db with pending := [] } =
              ([Event.createTable], none, connAfterCreate db) := by
            rw [hC]; rfl
          have hdbS := store_db_events w.insertFail (connAfterCreate db) dets
          cases hS : (store_detection_results w.insertFail
              (connAfterCreate db) dets).2.1 with
          | some er =>
            have hmain : main w db fs0 =
                { trace := Event.loadModel ::
                    ((download_images_from_telegram w.get channelURL fs0).1 ++
                     (detect_objects_in_images w.decode w.infer
                       w.imageFiles).1 ++ [Event.createTable] ++
                     (store_detection_results w.insertFail
                       (connAfterCreate db) dets).1),
                  err := some er,
                  conn := (store_detection_results w.insertFail
                    (connAfterCreate db) dets).2.2,
                  fs := (download_images_from_telegram w.get channelURL
                    fs0).2.2,
                  closed := false } := by
              simp only [main, hsm, hF, hD, hcr, hS]
            rw [hmain]
            refine ⟨?_, Or.inl rfl, Or.inl rfl, Or.inl ⟨dets, rfl⟩⟩
            have hshape : Event.loadModel ::
                ((download_images_from_telegram w.get channelURL fs0).1 ++
                 (detect_objects_in_images w.decode w.infer w.imageFiles).1 ++
                 [Event.createTable] ++
                 (store_detection_results w.insertFail
                   (connAfterCreate db) dets).1) =
                Event.loadModel ::
                ((download_images_from_telegram w.get channelURL fs0).1 ++
                 (detect_objects_in_images w.decode w.infer w.imageFiles).1 ++
                 (Event.createTable ::
                   (store_detection_results w.insertFail
                     (connAfterCreate db) dets).1) ++ []) := by simp
            rw [hshape]
            exact trace_partition _ _ _ [] hFet hDet
              (fun e he => by
                rcases List.mem_cons.mp he with rfl | he'
                · rfl
                · exact hdbS e he')
              (Or.inl rfl)
          | none =>
            have hmain : main w db fs0 =
                { trace := Event.loadModel ::
                    ((download_images_from_telegram w.get channelURL fs0).1 ++
                     (detect_objects_in_images w.decode w.infer
                       w.imageFiles).1 ++ [Event.createTable] ++
                     (store_detection_results w.insertFail
                       (connAfterCreate db) dets).1 ++ [Event.connClose]),
                  err := none,
                  conn := (store_detection_results w.insertFail
                    (connAfterCreate db) dets).2.2,
                  fs := (download_images_from_telegram w.get channelURL
                    fs0).2.2,
                  closed := true } := by
              simp only [main, hsm, hF, hD, hcr, hS]
            rw [hmain]
            refine ⟨?_, Or.inl rfl, Or.inl rfl, Or.inl ⟨dets, rfl⟩⟩
            have hshape : Event.loadModel ::
                ((download_images_from_telegram w.get channelURL fs0).1 ++
                 (detect_objects_in_images w.decode w.infer w.imageFiles).1 ++
                 [Event.createTable] ++
                 (store_detection_results w.insertFail
                   (connAfterCreate db) dets).1 ++ [Event.connClose]) =
                Event.loadModel ::
                ((download_images_from_telegram w.get channelURL fs0).1 ++
                 (detect_objects_in_images w.decode w.infer w.imageFiles).1 ++
                 (Event.createTable ::
                   (store_detection_results w.insertFail
                     (connAfterCreate db) dets).1) ++ [Event.connClose]) := by
              simp
            rw [hshape]
            exact trace_partition _ _ _ [Event.connClose] hFet hDet
              (fun e he => by
                rcases List.mem_cons.mp he with rfl | he'
                · rfl
                · exact hdbS e he')
              (Or.inr rfl)

end Predict
